import Mathlib

/-!
Verification development for the CTFtime archive enrichment pipeline
(src/enrich_ctf_data.py).  The Python code is shallowly embedded: pure
helper functions become Lean functions, the `try/except` wrapper of
`parse_ctftime_date` becomes an `Except`-valued body plus a total wrapper,
and the third-party call `dateutil.parser.parse(s, fuzzy=True)` is modelled
by `duParse` below, following dateutil's documented behaviour: tokens are
letter runs, digit runs and `hh:mm` times; month and weekday names are
recognised case-insensitively; unknown tokens (weekday names, timezone
abbreviations, stray words) are skipped because of `fuzzy=True`; fields
missing from the string are filled from the current date (`today`), which is
why the model carries an explicit `today : Date` argument; two-digit year
tokens are widened relative to the current year (dateutil's `convertyear`);
an out-of-range component raises, which the model reports as `.error ()`.
Timezone tokens are treated as noise: the Python code immediately strips
`tzinfo`, so the civil field content is unaffected.  Seconds, bare "10 PM"
hours and weekday-relative adjustment are outside the modelled fragment;
no claim below depends on them.
-/

namespace CtfEnrich

/-! ## Calendar primitives (the fragment of Python `datetime` that is used) -/

def isLeap (y : Nat) : Bool := (y % 4 == 0 && y % 100 != 0) || (y % 400 == 0)

def daysInMonth (y : Nat) (m : Nat) : Nat :=
  match m with
  | 1 => 31 | 2 => if isLeap y then 29 else 28 | 3 => 31 | 4 => 30 | 5 => 31 | 6 => 30
  | 7 => 31 | 8 => 31 | 9 => 30 | 10 => 31 | 11 => 30 | 12 => 31 | _ => 0

def daysBeforeYear (y : Nat) : Nat :=
  365 * (y - 1) + (y - 1) / 4 - (y - 1) / 100 + (y - 1) / 400

def daysBeforeMonth (m : Nat) (le : Bool) : Nat :=
  (match m with
   | 1 => 0 | 2 => 31 | 3 => 59 | 4 => 90 | 5 => 120 | 6 => 151 | 7 => 181
   | 8 => 212 | 9 => 243 | 10 => 273 | 11 => 304 | 12 => 334 | _ => 0)
  + (if 3 ≤ m && le then 1 else 0)

/-- Python `datetime.date.toordinal`: day 1 is 0001-01-01. -/
def pyOrdinal (y m d : Nat) : Nat := daysBeforeYear y + daysBeforeMonth m (isLeap y) + d

/-- Python `date.weekday()`: Monday = 0. -/
def pyWeekday (y m d : Nat) : Nat := (pyOrdinal y m d + 6) % 7

/-- A naive civil datetime at minute granularity (timezones are stripped by the code). -/
structure DateTime where
  year : Nat
  month : Nat
  day : Nat
  hour : Nat
  minute : Nat
deriving Repr, DecidableEq

/-- Minutes since the proleptic epoch; used for `timedelta.total_seconds`. -/
def DateTime.toMinutes (dt : DateTime) : Nat :=
  1440 * pyOrdinal dt.year dt.month dt.day + 60 * dt.hour + dt.minute

/-- Python datetime comparison: componentwise lexicographic. -/
def DateTime.ltb (a b : DateTime) : Bool :=
  a.year < b.year || (a.year == b.year && (a.month < b.month || (a.month == b.month &&
    (a.day < b.day || (a.day == b.day && (a.hour < b.hour ||
      (a.hour == b.hour && a.minute < b.minute)))))))

/-- The current date, i.e. the default date `dateutil` uses for unspecified fields. -/
structure Date where
  year : Nat
  month : Nat
  day : Nat
deriving Repr, DecidableEq

/-- dateutil's two-digit-year widening, relative to the current year. -/
def convertyear (ty : Nat) (v : Nat) : Nat :=
  let century := ty / 100 * 100
  let y := v + century
  if (if y < ty then ty - y else y - ty) ≥ 50 then (if y < ty then y + 100 else y - 100) else y

/-! ## String utilities mirroring the Python string operations -/

def lowerStr (s : String) : String := ⟨s.toList.map Char.toLower⟩

/-- Python `not s or s.strip() == ""`: the string has no non-whitespace character. -/
def isBlank (s : String) : Bool := s.toList.all (fun c => c == ' ' || c == '\t' || c == '\n' || c == '\r')

def isPrefB : List Char → List Char → Bool
  | [], _ => true
  | _ :: _, [] => false
  | a :: as, b :: bs => a == b && isPrefB as bs

def isInfB (n : List Char) : List Char → Bool
  | [] => isPrefB n []
  | c :: cs => isPrefB n (c :: cs) || isInfB n cs

/-- Python's `needle in hay` on strings. -/
def substrB (needle hay : String) : Bool := isInfB needle.toList hay.toList

def isWsChar (c : Char) : Bool := c == ' ' || c == '\t' || c == '\n' || c == '\r'

def isDashChar (c : Char) : Bool := c == '—' || c == '–' || c == '-'

/-- Split at every dash character, keeping empty pieces. -/
def splitOnDash : List Char → List (List Char)
  | [] => [[]]
  | c :: rest =>
    if isDashChar c then [] :: splitOnDash rest
    else
      match splitOnDash rest with
      | [] => [[c]]
      | s :: ss => (c :: s) :: ss

def lstripWs (l : List Char) : List Char := l.dropWhile isWsChar

def rstripWs (l : List Char) : List Char := (l.reverse.dropWhile isWsChar).reverse

/-- Strip the whitespace adjacent to each separator in the non-first pieces. -/
def trimSegs : List (List Char) → List (List Char)
  | [] => []
  | [x] => [lstripWs x]
  | x :: xs => lstripWs (rstripWs x) :: trimSegs xs

/-- Python `re.split(r'\s*[—–-]\s*', s)`: each dash is one separator occurrence and
the whitespace touching it is consumed; empty pieces are kept. -/
def reSplitDash (s : String) : List String :=
  match splitOnDash s.toList with
  | [] => []
  | [x] => [⟨x⟩]
  | x :: xs => ⟨rstripWs x⟩ :: (trimSegs xs).map (fun l => (⟨l⟩ : String))

/-- Python `str.split()` with no argument: split on whitespace runs, dropping empties. -/
def splitWsAux : List Char → List Char → List (List Char)
  | [], acc => if acc.isEmpty then [] else [acc.reverse]
  | c :: cs, acc =>
    if isWsChar c then (if acc.isEmpty then splitWsAux cs [] else acc.reverse :: splitWsAux cs [])
    else splitWsAux cs (c :: acc)

def splitWsStr (s : String) : List String := (splitWsAux s.toList []).map (fun l => (⟨l⟩ : String))

def digitsVal (l : List Char) : Nat := l.foldl (fun a c => 10 * a + (c.toNat - 48)) 0

/-! ## Model of `dateutil.parser.parse(s, fuzzy=True)` -/

inductive SubTok where
  | alpha (s : String)
  | num (v : Nat) (len : Nat)
  | colon
  | sep
deriving Repr, DecidableEq

/-- The run of adjacent letters or digits being accumulated (reversed). -/
inductive RunAcc where
  | nothing
  | letters (acc : List Char)
  | digits (acc : List Char)
deriving Repr, DecidableEq

def flushRun : RunAcc → List SubTok
  | .nothing => []
  | .letters acc => [.alpha ⟨acc.reverse.map Char.toLower⟩]
  | .digits acc => [.num (digitsVal acc.reverse) acc.length]

/-- Split one whitespace-free word into letter runs, digit runs and separators
(dateutil's `_timelex`). -/
def wordRunsAux : List Char → RunAcc → List SubTok
  | [], st => flushRun st
  | c :: cs, st =>
    if c.isAlpha then
      match st with
      | .letters acc => wordRunsAux cs (.letters (c :: acc))
      | st2 => flushRun st2 ++ wordRunsAux cs (.letters [c])
    else if c.isDigit then
      match st with
      | .digits acc => wordRunsAux cs (.digits (c :: acc))
      | st2 => flushRun st2 ++ wordRunsAux cs (.digits [c])
    else
      flushRun st ++ ((if c == ':' then SubTok.colon else SubTok.sep) :: wordRunsAux cs .nothing)

def wordRuns (w : List Char) : List SubTok := wordRunsAux w .nothing

def monthOfName (s : String) : Option Nat :=
  if s == "jan" || s == "january" then some 1
  else if s == "feb" || s == "february" then some 2
  else if s == "mar" || s == "march" then some 3
  else if s == "apr" || s == "april" then some 4
  else if s == "may" then some 5
  else if s == "jun" || s == "june" then some 6
  else if s == "jul" || s == "july" then some 7
  else if s == "aug" || s == "august" then some 8
  else if s == "sep" || s == "sept" || s == "september" then some 9
  else if s == "oct" || s == "october" then some 10
  else if s == "nov" || s == "november" then some 11
  else if s == "dec" || s == "december" then some 12
  else none

inductive Tok where
  | month (m : Nat)
  | num (v : Nat) (len : Nat)
  | time (h : Nat) (mi : Nat)
  | ampm (pm : Bool)
  | noise
deriving Repr, DecidableEq

def interpRuns : List SubTok → List Tok
  | [] => []
  | .num h _ :: .colon :: .num mi _ :: .colon :: .num _ _ :: rest =>
    .time h mi :: interpRuns rest
  | .num h _ :: .colon :: .num mi _ :: rest => .time h mi :: interpRuns rest
  | .num v l :: rest => .num v l :: interpRuns rest
  | .alpha a :: rest =>
    (match monthOfName a with
     | some m => Tok.month m
     | none =>
       if a == "am" then Tok.ampm false
       else if a == "pm" then Tok.ampm true
       else Tok.noise) :: interpRuns rest
  | .colon :: rest => interpRuns rest
  | .sep :: rest => interpRuns rest

def tokenizeStr (s : String) : List Tok :=
  ((splitWsAux s.toList []).map (fun w => interpRuns (wordRuns w))).flatten

structure Core where
  month : Option Nat
  nums : List (Nat × Nat)
  time : Option (Nat × Nat)
deriving Repr, DecidableEq

def collectToks : List Tok → Core → Except Unit Core
  | [], c => .ok c
  | t :: ts, c =>
    match t with
    | .month m =>
      match c.month with
      | some _ => .error ()
      | none => collectToks ts { c with month := some m }
    | .num v l => collectToks ts { c with nums := c.nums ++ [(v, l)] }
    | .time h mi =>
      match c.time with
      | some _ => .error ()
      | none => if h ≤ 23 && mi ≤ 59 then collectToks ts { c with time := some (h, mi) } else .error ()
    | .ampm pm =>
      match c.time with
      | some (h, mi) =>
        let h2 := if pm then (if h < 12 then h + 12 else h) else (if h == 12 then 0 else h)
        collectToks ts { c with time := some (h2, mi) }
      | none => collectToks ts c
    | .noise => collectToks ts c

/-- The date fields recovered from a string, before the current-date defaults are
applied.  `year` keeps the token length: length ≤ 2 means `convertyear` applies. -/
structure RawRes where
  day : Option Nat
  month : Option Nat
  year : Option (Nat × Nat)
  time : Option (Nat × Nat)
deriving Repr, DecidableEq

/-- A number token that can only be a year: three or more digits, or value above 31. -/
def isYearCertain (p : Nat × Nat) : Bool := 3 ≤ p.2 || 31 < p.1

def resolveRest (c : Core) (yc : Option (Nat × Nat)) (rest : List (Nat × Nat)) :
    Except Unit RawRes :=
  match c.month with
  | some m =>
    match yc, rest with
    | _, [] => .ok ⟨none, some m, yc, c.time⟩
    | _, [a] => .ok ⟨some a.1, some m, yc, c.time⟩
    | none, [a, b] => .ok ⟨some a.1, some m, some b, c.time⟩
    | some _, [_, _] => .error ()
    | _, _ => .error ()
  | none =>
    match yc, rest with
    | none, [] => .ok ⟨none, none, none, c.time⟩
    | some y, [] => .ok ⟨none, none, some y, c.time⟩
    | none, [a] => .ok ⟨some a.1, none, none, c.time⟩
    | some y, [a] => if a.1 ≤ 12 then .ok ⟨none, some a.1, some y, c.time⟩ else .error ()
    | none, [a, b] =>
      if a.1 ≤ 12 then .ok ⟨some b.1, some a.1, none, c.time⟩
      else if b.1 ≤ 12 then .ok ⟨some a.1, some b.1, none, c.time⟩ else .error ()
    | some y, [a, b] =>
      if a.1 ≤ 12 then .ok ⟨some b.1, some a.1, some y, c.time⟩
      else if b.1 ≤ 12 then .ok ⟨some a.1, some b.1, some y, c.time⟩ else .error ()
    | none, [a, b, cc] =>
      if a.1 ≤ 12 then .ok ⟨some b.1, some a.1, some cc, c.time⟩
      else if b.1 ≤ 12 then .ok ⟨some a.1, some b.1, some cc, c.time⟩ else .error ()
    | _, _ => .error ()

def resolveNums (c : Core) : Except Unit RawRes :=
  match c.nums.filter isYearCertain with
  | [] => resolveRest c none (c.nums.filter (fun p => !(isYearCertain p)))
  | [yc] => resolveRest c (some yc) (c.nums.filter (fun p => !(isYearCertain p)))
  | _ => .error ()

/-- The current-date-independent part of the fuzzy parse. -/
def duParseCore (s : String) : Except Unit RawRes :=
  match collectToks (tokenizeStr s) ⟨none, [], none⟩ with
  | .error e => .error e
  | .ok c => resolveNums c

/-- The year after two-digit widening, defaulting to the current year. -/
def finalYear (r : RawRes) (today : Date) : Nat :=
  match r.year with
  | some (v, l) => if l ≤ 2 then convertyear today.year v else v
  | none => today.year

/-- Validate and build the datetime: an explicitly parsed day must be valid,
while a defaulted day is clamped to the end of the month. -/
def buildDT (y m : Nat) (day : Option Nat) (tm : Nat × Nat) (today : Date) :
    Except Unit DateTime :=
  if y < 1 || 9999 < y then .error ()
  else if m < 1 || 12 < m then .error ()
  else
    match day with
    | some d => if d < 1 || daysInMonth y m < d then .error () else .ok ⟨y, m, d, tm.1, tm.2⟩
    | none => .ok ⟨y, m, min today.day (daysInMonth y m), tm.1, tm.2⟩

/-- Fill unspecified fields from the current date and validate, as dateutil's
`_build_naive` does; a string with no date or time information at all raises. -/
def finalize (r : RawRes) (today : Date) : Except Unit DateTime :=
  if r.day.isNone && r.month.isNone && r.year.isNone && r.time.isNone then .error ()
  else buildDT (finalYear r today) (r.month.getD today.month) r.day (r.time.getD (0, 0)) today

/-- Model of `dateutil.parser.parse(s, fuzzy=True)`: either a datetime or an
exception, as a function of the string and of the current date. -/
def duParse (s : String) (today : Date) : Except Unit DateTime :=
  match duParseCore s with
  | .error e => .error e
  | .ok r => finalize r today

/-! ## `CTFDataEnricher.parse_ctftime_date` (src/enrich_ctf_data.py lines 19-67) -/

/-- Line 39-40: append the reference year to the start segment unless its digit
string already occurs as a substring. -/
def startString (start_str : String) (year : Int) : String :=
  if substrB (toString year) start_str then start_str else start_str ++ " " ++ toString year

/-- Lines 47-51: end-segment year inference.  The second component records which
year was appended (`none` when the segment already mentions one). -/
def endSegInference (end_str : String) (year : Int) (startMonth : Nat) :
    String × Option Int :=
  if !substrB (toString year) end_str && !substrB (toString (year + 1)) end_str then
    if substrB "jan" (lowerStr end_str) && startMonth == 12 then
      (end_str ++ " " ++ toString (year + 1), some (year + 1))
    else (end_str ++ " " ++ toString year, some year)
  else (end_str, none)

/-- Lines 59-62: the rollover re-parse string built from the first two
whitespace tokens of the end segment; `none` when indexing would raise. -/
def reparseString (end_str : String) (year : Int) : Option String :=
  match splitWsStr end_str with
  | t0 :: t1 :: _ => some (t0 ++ " " ++ t1 ++ " " ++ toString (year + 1))
  | _ => none

/-- The body of the `try` block (lines 31-64). -/
def parseBody (date_str : String) (year : Int) (today : Date) :
    Except Unit (Option DateTime × Option DateTime) :=
  if (reSplitDash date_str).length != 2 then .ok (none, none)
  else
    match duParse (startString ((reSplitDash date_str).getD 0 "") year) today with
    | .error e => .error e
    | .ok start_dt =>
      match duParse ((endSegInference ((reSplitDash date_str).getD 1 "") year
          start_dt.month).1) today with
      | .error e => .error e
      | .ok end_dt =>
        if end_dt.ltb start_dt then
          match reparseString ((endSegInference ((reSplitDash date_str).getD 1 "") year
              start_dt.month).1) year with
          | none => .error ()
          | some rs =>
            match duParse rs today with
            | .error e => .error e
            | .ok end_dt2 => .ok (some start_dt, some end_dt2)
        else .ok (some start_dt, some end_dt)

/-- `parse_ctftime_date`: blank input short-circuits, every exception inside the
body is converted to the absent interval. -/
def parse_ctftime_date (date_str : String) (year : Int) (today : Date) :
    Option DateTime × Option DateTime :=
  if isBlank date_str then (none, none)
  else
    match parseBody date_str year today with
    | .ok r => r
    | .error _ => (none, none)

/-! ## Python numeric coercions -/

def digitsOnly (l : List Char) : Bool := !l.isEmpty && l.all Char.isDigit

/-- Python `str.strip()` as a character list. -/
def stripWs (s : String) : List Char := rstripWs (lstripWs s.toList)

/-- Python `int(s)` on a string: optional sign, decimal digits, else `ValueError`. -/
def pyInt (s : String) : Except Unit Int :=
  match stripWs s with
  | '+' :: rest => if digitsOnly rest then .ok (digitsVal rest : Nat) else .error ()
  | '-' :: rest => if digitsOnly rest then .ok (-(digitsVal rest : Nat) : Int) else .error ()
  | rest => if digitsOnly rest then .ok (digitsVal rest : Nat) else .error ()

def pyFloatMag (l : List Char) : Except Unit ℚ :=
  let intPart := l.takeWhile Char.isDigit
  match l.dropWhile Char.isDigit with
  | [] => if intPart.isEmpty then .error () else .ok (mkRat (digitsVal intPart) 1)
  | '.' :: frac =>
    if frac.all Char.isDigit && !(intPart.isEmpty && frac.isEmpty) then
      .ok (mkRat (digitsVal intPart * 10 ^ frac.length + digitsVal frac) (10 ^ frac.length))
    else .error ()
  | _ => .error ()

/-- Python `float(s)` on a plain decimal literal (exponents and specials unused here). -/
def pyFloat (s : String) : Except Unit ℚ :=
  match stripWs s with
  | '+' :: rest => pyFloatMag rest
  | '-' :: rest => (pyFloatMag rest).map (fun q => -q)
  | rest => pyFloatMag rest

/-- Exact division of a rational by a positive natural number. -/
def ratDivNat (q : ℚ) (n : Nat) : ℚ := mkRat q.num (q.den * n)

/-- Python `round(x, 2)`: round `x * 100` to an integer (half up; ties never
arise at minute granularity) and divide by 100. -/
def pyRound2 (q : ℚ) : ℚ :=
  let x := mkRat (q.num * 100) q.den
  mkRat (Int.fdiv (2 * x.num + x.den) (2 * x.den)) 100

/-! ## Feature derivation (src/enrich_ctf_data.py lines 69-141) -/

def get_duration_hours (s e : Option DateTime) : Option ℚ :=
  match s, e with
  | some sdt, some edt =>
    let hours : ℚ := mkRat ((edt.toMinutes : ℤ) - (sdt.toMinutes : ℤ)) 60
    if hours < 0 then none else some (pyRound2 hours)
  | _, _ => none

def get_quarter (month : Nat) : String := "Q" ++ toString ((month - 1) / 3 + 1)

def get_season (month : Nat) : Option String :=
  match month with
  | 12 => some "Winter" | 1 => some "Winter" | 2 => some "Winter"
  | 3 => some "Spring" | 4 => some "Spring" | 5 => some "Spring"
  | 6 => some "Summer" | 7 => some "Summer" | 8 => some "Summer"
  | 9 => some "Fall" | 10 => some "Fall" | 11 => some "Fall"
  | _ => none

def get_covid_era (year : Int) (month : Nat) : String :=
  if year < 2020 || (year == 2020 && month < 3) then "Pre-COVID"
  else if year ≤ 2021 then "COVID"
  else "Post-COVID"

def get_duration_category (hours : Option ℚ) : Option String :=
  match hours with
  | none => none
  | some h => if h < 24 then some "Short" else if h ≤ 48 then some "Medium" else some "Long"

def get_weight_category (weight : Option ℚ) : String :=
  match weight with
  | none => "Zero"
  | some w => if w == 0 then "Zero" else if w < 25 then "Low" else if w ≤ 50 then "Medium" else "High"

def standardize_location (location_raw : String) : String :=
  if location_raw == "On-line" || location_raw == "Online" then "Online"
  else if location_raw == "In-person" || location_raw == "On-site" then "On-site"
  else if location_raw == "Hybrid" then "Hybrid"
  else location_raw

def standardize_format (format_raw : String) : String :=
  if format_raw == "Hack-Quest" then "Jeopardy"
  else if format_raw == "Jeopardy" || format_raw == "Attack-Defense" || format_raw == "Hybrid"
      || format_raw == "King-of-the-Hill" then format_raw
  else "Other"

/-! ## strftime fragments used by `enrich_event` -/

def pad2 (n : Nat) : String := if n < 10 then "0" ++ toString n else toString n

def pad4 (n : Nat) : String :=
  if n < 10 then "000" ++ toString n
  else if n < 100 then "00" ++ toString n
  else if n < 1000 then "0" ++ toString n
  else toString n

def fmtDate (dt : DateTime) : String :=
  pad4 dt.year ++ "-" ++ pad2 dt.month ++ "-" ++ pad2 dt.day

def fmtDateTime (dt : DateTime) : String :=
  fmtDate dt ++ " " ++ pad2 dt.hour ++ ":" ++ pad2 dt.minute ++ ":00"

def dayName (w : Nat) : String :=
  match w with
  | 0 => "Monday" | 1 => "Tuesday" | 2 => "Wednesday" | 3 => "Thursday"
  | 4 => "Friday" | 5 => "Saturday" | 6 => "Sunday" | _ => ""

/-! ## Records and enrichment (src/enrich_ctf_data.py lines 143-240) -/

/-- A CSV row as read by `csv.DictReader`: all fields are strings. -/
structure RawRecord where
  event_id : String
  name : String
  year : String
  date_raw : String
  format : String
  location : String
  weight : String
  notes : String
deriving Repr, DecidableEq

structure Failure where
  event_id : String
  name : String
  date_raw : String
deriving Repr, DecidableEq

structure Outlier where
  event_id : String
  name : String
  duration_hours : ℚ
deriving Repr, DecidableEq

/-- The enricher's instance state (`self.parse_failures`, `self.duration_outliers`). -/
structure EState where
  parse_failures : List Failure
  duration_outliers : List Outlier
deriving Repr, DecidableEq

structure Enriched where
  event_id : String
  name : String
  year : String
  date_raw : String
  format : String
  location : String
  weight : String
  notes : String
  start_date : Option String
  end_date : Option String
  start_datetime : Option String
  end_datetime : Option String
  duration_hours : Option ℚ
  duration_days : Option ℚ
  start_month : Option Nat
  start_quarter : Option String
  start_day_of_week : Option String
  is_weekend : Option Nat
  season : Option String
  covid_era : String
  is_multi_day : Option Nat
  duration_category : Option String
  weight_category : String
  is_qualifier : Nat
  is_finals : Nat
  is_prequalified : Nat
  year_index : Int
  event_sequence_in_year : Nat
deriving Repr, DecidableEq

def qualFlag (name : String) : Nat :=
  if substrB "qual" (lowerStr name) || substrB "prelim" (lowerStr name) then 1 else 0

def finalsFlag (name : String) : Nat := if substrB "final" (lowerStr name) then 1 else 0

/-- Failure-branch prequalified flag (line 180): no "N/A" guard. -/
def preqFlagFail (notes : String) : Nat :=
  if substrB "prequalified" (lowerStr notes) then 1 else 0

/-- Success-branch prequalified flag (line 216): guarded by `notes != 'N/A'`. -/
def preqFlagOk (notes : String) : Nat :=
  if notes != "N/A" && substrB "prequalified" (lowerStr notes) then 1 else 0

/-- Line 211: `1 if duration_hours and duration_hours > 24 else 0` (Python truthiness). -/
def multiDayFlag (d : Option ℚ) : Nat :=
  match d with
  | none => 0
  | some h => if h ≠ 0 ∧ 24 < h then 1 else 0

def weekendFlag (w : Nat) : Nat := if 4 ≤ w then 1 else 0

def enrich_event (st : EState) (event : RawRecord) (event_sequence : Nat) (today : Date) :
    Except Unit (EState × Enriched) :=
  match pyInt event.year with
  | .error e => .error e
  | .ok year =>
    match pyFloat event.weight with
    | .error e => .error e
    | .ok weight =>
      let loc := standardize_location event.location
      let fmt := standardize_format event.format
      match parse_ctftime_date event.date_raw year today with
      | (some start_dt, some end_dt) =>
        let duration_hours := get_duration_hours (some start_dt) (some end_dt)
        let duration_days := match duration_hours with
          | some h => if h == 0 then none else some (pyRound2 (ratDivNat h 24))
          | none => none
        let st2 := match duration_hours with
          | some h =>
            if h ≠ 0 ∧ 168 < h then
              { st with duration_outliers :=
                  st.duration_outliers ++ [⟨event.event_id, event.name, h⟩] }
            else st
          | none => st
        .ok (st2,
          { event_id := event.event_id, name := event.name, year := event.year,
            date_raw := event.date_raw, format := fmt, location := loc,
            weight := event.weight, notes := event.notes,
            start_date := some (fmtDate start_dt),
            end_date := some (fmtDate end_dt),
            start_datetime := some (fmtDateTime start_dt),
            end_datetime := some (fmtDateTime end_dt),
            duration_hours := duration_hours,
            duration_days := duration_days,
            start_month := some start_dt.month,
            start_quarter := some (get_quarter start_dt.month),
            start_day_of_week := some (dayName (pyWeekday start_dt.year start_dt.month start_dt.day)),
            is_weekend := some (weekendFlag (pyWeekday start_dt.year start_dt.month start_dt.day)),
            season := get_season start_dt.month,
            covid_era := get_covid_era year start_dt.month,
            is_multi_day := some (multiDayFlag duration_hours),
            duration_category := get_duration_category duration_hours,
            weight_category := get_weight_category (some weight),
            is_qualifier := qualFlag event.name,
            is_finals := finalsFlag event.name,
            is_prequalified := preqFlagOk event.notes,
            year_index := year - 2015,
            event_sequence_in_year := event_sequence })
      | _ =>
        let st2 := { st with parse_failures :=
            st.parse_failures ++ [⟨event.event_id, event.name, event.date_raw⟩] }
        .ok (st2,
          { event_id := event.event_id, name := event.name, year := event.year,
            date_raw := event.date_raw, format := fmt, location := loc,
            weight := event.weight, notes := event.notes,
            start_date := none, end_date := none,
            start_datetime := none, end_datetime := none,
            duration_hours := none, duration_days := none,
            start_month := none, start_quarter := none,
            start_day_of_week := none, is_weekend := none,
            season := none,
            covid_era := get_covid_era year 1,
            is_multi_day := none,
            duration_category := none,
            weight_category := get_weight_category (some weight),
            is_qualifier := qualFlag event.name,
            is_finals := finalsFlag event.name,
            is_prequalified := preqFlagFail event.notes,
            year_index := year - 2015,
            event_sequence_in_year := event_sequence })

/-- The loop body of `enrich_dataset` (lines 231-234), with the per-year counter
dictionary `year_sequences` as a function. -/
def enrichAux (st : EState) (seqs : Int → Nat) (rows : List RawRecord) (today : Date) :
    Except Unit (EState × List Enriched) :=
  match rows with
  | [] => .ok (st, [])
  | r :: rest =>
    match pyInt r.year with
    | .error e => .error e
    | .ok y =>
      let c := seqs y + 1
      match enrich_event st r c today with
      | .error e => .error e
      | .ok (st1, en) =>
        match enrichAux st1 (fun y2 => if y2 == y then c else seqs y2) rest today with
        | .error e => .error e
        | .ok (st2, ens) => .ok (st2, en :: ens)

/-- `enrich_dataset` over an in-memory record sequence (file I/O is external). -/
def enrich_dataset (st : EState) (rows : List RawRecord) (today : Date) :
    Except Unit (EState × List Enriched) :=
  enrichAux st (fun _ => 0) rows today

/-- The parsed year of a record, defaulting to 0 (used only to state positions). -/
def yearKey (r : RawRecord) : Int :=
  match pyInt r.year with
  | .ok y => y
  | .error _ => 0

/-! ## Observation predicates used to state the theorems -/

/-- Whether the run of `parse_ctftime_date` on this input reaches the rollover
re-parse of lines 58-62 (both fuzzy parses succeeded and end < start). -/
def rolloverFired (date_str : String) (year : Int) (today : Date) : Bool :=
  if isBlank date_str then false
  else if (reSplitDash date_str).length != 2 then false
  else
    match duParse (startString ((reSplitDash date_str).getD 0 "") year) today with
    | .error _ => false
    | .ok start_dt =>
      match duParse ((endSegInference ((reSplitDash date_str).getD 1 "") year
          start_dt.month).1) today with
      | .error _ => false
      | .ok end_dt => end_dt.ltb start_dt

/-- A fuzzy-parse input is wall-clock independent when it either fails before the
defaults are applied or explicitly determines day, month and a 3-plus-digit year. -/
def wallFree (s : String) : Bool :=
  match duParseCore s with
  | .error _ => true
  | .ok r =>
    r.day.isSome && r.month.isSome && (match r.year with | some (_, l) => 3 ≤ l | none => false)

def dummyToday : Date := ⟨2000, 1, 1⟩

/-- Every fuzzy parse performed by `parse_ctftime_date` on this input is
wall-clock independent. -/
def parseWallFree (date_str : String) (year : Int) : Bool :=
  if isBlank date_str then true
  else if (reSplitDash date_str).length != 2 then true
  else
    wallFree (startString ((reSplitDash date_str).getD 0 "") year) &&
    match duParse (startString ((reSplitDash date_str).getD 0 "") year) dummyToday with
    | .error _ => true
    | .ok start_dt =>
      wallFree ((endSegInference ((reSplitDash date_str).getD 1 "") year start_dt.month).1) &&
      match duParse ((endSegInference ((reSplitDash date_str).getD 1 "") year
          start_dt.month).1) dummyToday with
      | .error _ => true
      | .ok end_dt =>
        if end_dt.ltb start_dt then
          match reparseString ((endSegInference ((reSplitDash date_str).getD 1 "") year
              start_dt.month).1) year with
          | none => true
          | some rs => wallFree rs
        else true

/-! ## Sample data for witnesses and counterexamples -/

def sampleToday : Date := ⟨2026, 10, 12⟩

/-- The specification's §8 scenario record. -/
def recScenario : RawRecord :=
  ⟨"1", "Alpha CTF", "2015", "27 Dec., 12:00 — 29 Dec. 2015, 12:00", "Jeopardy", "On-line", "25",
    "N/A"⟩

/-- A record whose range has zero duration. -/
def recZeroDur : RawRecord :=
  ⟨"2", "Zero CTF", "2015", "27 Dec., 12:00 — 27 Dec. 2015, 12:00", "Jeopardy", "Online", "0",
    "N/A"⟩

/-- A record whose year field is not a usable integer. -/
def recBadYear : RawRecord :=
  ⟨"3", "Bad Year CTF", "unknown", "01 Jan — 02 Jan", "Jeopardy", "On-line", "25", "N/A"⟩

/-- The specification's §8 cross-year scenario record. -/
def recNewYear : RawRecord :=
  ⟨"4", "NewYear CTF", "2019", "28 Dec. — 02 Jan.", "Jeopardy", "Online", "31.3", "N/A"⟩

/-- A record whose raw location is the upstream sentinel `REVIEW`. -/
def recReview : RawRecord :=
  ⟨"5", "Review CTF", "2019", "", "Jeopardy", "REVIEW", "0", "N/A"⟩

/-! ## Helper lemmas -/

theorem splitOnDash_length (cs : List Char) :
    (splitOnDash cs).length = cs.countP isDashChar + 1 := by
  induction cs with
  | nil => simp [splitOnDash]
  | cons c rest ih =>
    by_cases h : isDashChar c
    · simp [splitOnDash, h, List.countP_cons, ih]
    · rcases hs : splitOnDash rest with _ | ⟨s, ss⟩
      · rw [hs] at ih; simp at ih
      · rw [hs] at ih
        simp only [splitOnDash, h, if_false, hs, List.countP_cons, List.length_cons] at ih ⊢
        simpa using ih

theorem trimSegs_length (l : List (List Char)) : (trimSegs l).length = l.length := by
  induction l with
  | nil => rfl
  | cons x xs ih =>
    cases xs with
    | nil => rfl
    | cons y ys => simpa [trimSegs] using ih

theorem reSplitDash_length (s : String) :
    (reSplitDash s).length = s.toList.countP isDashChar + 1 := by
  have hlen := splitOnDash_length s.toList
  unfold reSplitDash
  rcases hs : splitOnDash s.toList with _ | ⟨x, xs⟩
  · rw [hs] at hlen; simp at hlen
  · rw [hs] at hlen
    cases xs with
    | nil => simpa using hlen
    | cons y ys =>
      simp only [List.length_cons] at hlen ⊢
      simpa [trimSegs_length] using hlen

theorem parseBody_shape (s : String) (y : Int) (t : Date)
    (r : Option DateTime × Option DateTime) (h : parseBody s y t = .ok r) :
    r = (none, none) ∨ ∃ a b, r = (some a, some b) := by
  unfold parseBody at h
  split at h
  · exact Or.inl (by injection h with h2; exact h2.symm)
  · split at h
    · cases h
    · split at h
      · cases h
      · split at h
        · split at h
          · cases h
          · split at h
            · cases h
            · exact Or.inr ⟨_, _, by injection h with h2; exact h2.symm⟩
        · exact Or.inr ⟨_, _, by injection h with h2; exact h2.symm⟩

theorem buildDT_month (y m : Nat) (day : Option Nat) (tm : Nat × Nat) (t : Date)
    (dt : DateTime) (h : buildDT y m day tm t = .ok dt) :
    1 ≤ dt.month ∧ dt.month ≤ 12 := by
  unfold buildDT at h
  split at h
  · cases h
  · split at h
    · cases h
    · next hm =>
      simp only [Bool.or_eq_true, decide_eq_true_eq, not_or, not_lt] at hm
      split at h
      · split at h
        · cases h
        · injection h with h2; subst h2; exact ⟨hm.1, hm.2⟩
      · injection h with h2; subst h2; exact ⟨hm.1, hm.2⟩

theorem finalize_month (r : RawRes) (t : Date) (dt : DateTime)
    (h : finalize r t = .ok dt) : 1 ≤ dt.month ∧ dt.month ≤ 12 := by
  unfold finalize at h
  split at h
  · cases h
  · exact buildDT_month _ _ _ _ _ _ h

theorem duParse_month (s : String) (t : Date) (dt : DateTime)
    (h : duParse s t = .ok dt) : 1 ≤ dt.month ∧ dt.month ≤ 12 := by
  unfold duParse at h
  split at h
  · cases h
  · exact finalize_month _ _ _ h

theorem get_season_isSome (m : Nat) (h1 : 1 ≤ m) (h2 : m ≤ 12) : get_season m ≠ none := by
  interval_cases m <;> simp [get_season]

theorem get_duration_category_none (o : Option ℚ) :
    get_duration_category o = none ↔ o = none := by
  cases o with
  | none => simp [get_duration_category]
  | some h => simp only [get_duration_category]; split_ifs <;> simp

theorem preqFlag_eq (notes : String) : preqFlagFail notes = preqFlagOk notes := by
  by_cases h : notes = "N/A"
  · subst h; rfl
  · rw [preqFlagFail, preqFlagOk, bne_iff_ne.mpr h, Bool.true_and]

theorem wallFree_duParse (s : String) (h : wallFree s = true) (t1 t2 : Date) :
    duParse s t1 = duParse s t2 := by
  unfold wallFree at h
  unfold duParse
  cases hc : duParseCore s with
  | error e => rfl
  | ok r =>
    rw [hc] at h
    simp only [Bool.and_eq_true] at h
    obtain ⟨⟨hd, hm⟩, hy⟩ := h
    obtain ⟨d, hd'⟩ := Option.isSome_iff_exists.mp hd
    obtain ⟨m, hm'⟩ := Option.isSome_iff_exists.mp hm
    rcases hy' : r.year with _ | ⟨v, l⟩
    · rw [hy'] at hy; simp at hy
    · rw [hy'] at hy
      have hl : ¬ (l ≤ 2) := by
        have := of_decide_eq_true hy
        omega
      unfold finalize finalYear buildDT
      simp [hd', hm', hy', hl]

theorem enrich_event_ok (st : EState) (r : RawRecord) (seq : Nat) (t : Date)
    (y : Int) (hy : pyInt r.year = .ok y) (w : ℚ) (hw : pyFloat r.weight = .ok w) :
    ∃ st2 e, enrich_event st r seq t = .ok (st2, e) ∧
      e.event_id = r.event_id ∧ e.name = r.name ∧ e.date_raw = r.date_raw ∧
      e.event_sequence_in_year = seq := by
  unfold enrich_event
  rw [hy]
  dsimp only
  rw [hw]
  dsimp only
  rcases hp : parse_ctftime_date r.date_raw y t with ⟨so, eo⟩
  cases so <;> cases eo <;> exact ⟨_, _, rfl, rfl, rfl, rfl, rfl⟩

theorem enrichAux_error (t : Date) (rows : List RawRecord) :
    ∀ (st : EState) (seqs : Int → Nat),
      (∃ r ∈ rows, pyInt r.year = .error ()) →
      enrichAux st seqs rows t = .error () := by
  induction rows with
  | nil => intro st seqs h; simp at h
  | cons r rest ih =>
    intro st seqs h
    rw [enrichAux]
    cases hy : pyInt r.year with
    | error e => cases e; rfl
    | ok y =>
      have hr : ∃ r2 ∈ rest, pyInt r2.year = .error () := by
        rcases h with ⟨r2, hmem, hbad⟩
        rcases List.mem_cons.mp hmem with heq | hmem2
        · subst heq; rw [hy] at hbad; cases hbad
        · exact ⟨r2, hmem2, hbad⟩
      dsimp only
      cases he : enrich_event st r (seqs y + 1) t with
      | error e => cases e; rfl
      | ok p =>
        obtain ⟨st1, en⟩ := p
        dsimp only
        rw [ih st1 _ hr]

theorem enrichAux_spec (t : Date) (rows : List RawRecord) :
    ∀ (st : EState) (seqs : Int → Nat),
      (∀ r ∈ rows, ∃ y, pyInt r.year = .ok y) →
      (∀ r ∈ rows, ∃ w, pyFloat r.weight = .ok w) →
      ∃ st2 out, enrichAux st seqs rows t = .ok (st2, out) ∧
        out.length = rows.length ∧
        ∀ i, i < rows.length →
          ∃ e r, out[i]? = some e ∧ rows[i]? = some r ∧
            e.event_id = r.event_id ∧ e.name = r.name ∧ e.date_raw = r.date_raw ∧
            e.event_sequence_in_year =
              seqs (yearKey r) +
                (rows.take (i + 1)).countP (fun r2 => yearKey r2 == yearKey r) := by
  induction rows with
  | nil =>
    intro st seqs _ _
    exact ⟨st, [], rfl, rfl, fun i hi => absurd hi (by simp)⟩
  | cons r rest ih =>
    intro st seqs hy hw
    obtain ⟨y, hy0⟩ := hy r (by simp)
    obtain ⟨w, hw0⟩ := hw r (by simp)
    have hyk : yearKey r = y := by rw [yearKey, hy0]
    obtain ⟨st1, e, he, he1, he2, he3, he4⟩ := enrich_event_ok st r (seqs y + 1) t y hy0 w hw0
    obtain ⟨st2, out, hout, hlen, hspec⟩ :=
      ih st1 (fun y2 => if y2 == y then seqs y + 1 else seqs y2)
        (fun r2 h2 => hy r2 (by simp [h2])) (fun r2 h2 => hw r2 (by simp [h2]))
    refine ⟨st2, e :: out, ?_, by simpa using hlen, ?_⟩
    · rw [enrichAux, hy0]
      dsimp only
      rw [he]
      dsimp only
      rw [hout]
    · intro i hi
      cases i with
      | zero =>
        refine ⟨e, r, by simp, by simp, he1, he2, he3, ?_⟩
        rw [he4, hyk]
        simp [List.take_succ_cons, List.countP_cons, hyk]
      | succ j =>
        have hj : j < rest.length := by simpa using hi
        obtain ⟨e2, r2, ho2, hr2, f1, f2, f3, f4⟩ := hspec j hj
        refine ⟨e2, r2, by simpa using ho2, by simpa using hr2, f1, f2, f3, ?_⟩
        rw [f4]
        rw [List.take_succ_cons, List.countP_cons]
        by_cases hcase : (yearKey r2 == y) = true
        · have heq : yearKey r2 = y := beq_iff_eq.mp hcase
          rw [heq, hyk]
          simp only [beq_self_eq_true, if_true]
          omega
        · have hne : yearKey r2 ≠ y := fun hq => hcase (beq_iff_eq.mpr hq)
          have hcase' : (yearKey r2 == y) = false := by
            simpa using hcase
          have hcase2 : (yearKey r == yearKey r2) = false := by
            rw [hyk]
            exact beq_eq_false_iff_ne.mpr (fun hq => hne hq.symm)
          simp [hcase', hcase2]

theorem parse_start_month (s : String) (y : Int) (t : Date) (a b : DateTime)
    (h : parse_ctftime_date s y t = (some a, some b)) :
    1 ≤ a.month ∧ a.month ≤ 12 := by
  by_cases hb : isBlank s
  · rw [parse_ctftime_date, if_pos hb] at h; simp at h
  · rw [parse_ctftime_date, if_neg hb] at h
    cases hpb : parseBody s y t with
    | error e => rw [hpb] at h; simp at h
    | ok r =>
      rw [hpb] at h
      dsimp only at h
      subst h
      unfold parseBody at hpb
      split at hpb
      · injection hpb with h2; simp at h2
      · split at hpb
        · cases hpb
        · next start_dt heq1 =>
          split at hpb
          · cases hpb
          · split at hpb
            · split at hpb
              · cases hpb
              · split at hpb
                · cases hpb
                · injection hpb with h2
                  obtain ⟨h3, h4⟩ := Prod.mk.injEq .. |>.mp h2
                  obtain rfl := Option.some.injEq .. |>.mp h3
                  exact duParse_month _ _ _ heq1
            · injection hpb with h2
              obtain ⟨h3, h4⟩ := Prod.mk.injEq .. |>.mp h2
              obtain rfl := Option.some.injEq .. |>.mp h3
              exact duParse_month _ _ _ heq1

/-! ## Claims -/

/-- Claim C1, counterexample: with reference year 19 the digit string "19"
occurs inside the start year token "2119", so no year is appended to the start
segment; the end segment gets year 19 appended (widened to 2019 by the fuzzy
parser), the rollover correction re-parses with year 20 (widened to 2020), and
the result is returned unchecked: the end 2020-05-01 precedes the start
2119-06-15, so "end ≥ start whenever parse succeeds" is false. -/
theorem c1_counterexample :
    parse_ctftime_date "15 Jun 2119 — 01 May" 19 ⟨2026, 10, 12⟩ =
      (some ⟨2119, 6, 15, 0, 0⟩, some ⟨2020, 5, 1, 0, 0⟩) ∧
    DateTime.ltb ⟨2020, 5, 1, 0, 0⟩ ⟨2119, 6, 15, 0, 0⟩ = true :=
  ⟨rfl, rfl⟩

/-- Claim C1, amended: whenever parse succeeds without triggering the rollover
re-parse of lines 58-62, the returned end is not before the returned start.
The re-parsed end of the rollover branch is returned without a further check
and can still precede the start, as the counterexample shows. -/
theorem c1_rollover_unchecked (s : String) (y : Int) (t : Date) (sdt edt : DateTime)
    (h : parse_ctftime_date s y t = (some sdt, some edt))
    (hro : rolloverFired s y t = false) :
    edt.ltb sdt = false := by
  by_cases hb : isBlank s
  · rw [parse_ctftime_date, if_pos hb] at h; simp at h
  · rw [parse_ctftime_date, if_neg hb] at h
    rw [rolloverFired, if_neg hb] at hro
    cases hpb : parseBody s y t with
    | error e => rw [hpb] at h; simp at h
    | ok r =>
      rw [hpb] at h
      dsimp only at h
      subst h
      unfold parseBody at hpb
      by_cases hl : ((reSplitDash s).length != 2) = true
      · rw [if_pos hl] at hpb
        injection hpb with h2
        simp at h2
      · rw [if_neg hl] at hpb
        rw [if_neg hl] at hro
        cases hs1 : duParse (startString ((reSplitDash s).getD 0 "") y) t with
        | error e => rw [hs1] at hpb; simp at hpb
        | ok start_dt =>
          rw [hs1] at hpb hro
          dsimp only at hpb hro
          cases hs2 : duParse ((endSegInference ((reSplitDash s).getD 1 "") y
              start_dt.month).1) t with
          | error e => rw [hs2] at hpb; simp at hpb
          | ok end_dt =>
            rw [hs2] at hpb hro
            dsimp only at hpb hro
            by_cases hlt : end_dt.ltb start_dt = true
            · exact absurd (hlt.symm.trans hro) (by simp)
            · rw [if_neg hlt] at hpb
              injection hpb with h2
              obtain ⟨h3, h4⟩ := Prod.mk.injEq .. |>.mp h2
              obtain rfl := Option.some.injEq .. |>.mp h3
              obtain rfl := Option.some.injEq .. |>.mp h4
              simpa using hlt

/-- Claim C1, witness for the amended theorem at the specification's §8
scenario input. -/
theorem c1_witness :
    DateTime.ltb ⟨2015, 12, 29, 12, 0⟩ ⟨2015, 12, 27, 12, 0⟩ = false :=
  c1_rollover_unchecked "27 Dec., 12:00 — 29 Dec. 2015, 12:00" 2015 ⟨2026, 10, 12⟩
    ⟨2015, 12, 27, 12, 0⟩ ⟨2015, 12, 29, 12, 0⟩ rfl rfl

/-- Claim C3: the blank-input guard returns the absent interval, every
exception of the try-block body is converted to the absent interval, and the
result is always either fully absent or fully present — `parse_ctftime_date`
never lets an exception escape. -/
theorem c3_parse_never_raises (s : String) (y : Int) (t : Date) :
    ((isBlank s = true ∨ ∃ e, parseBody s y t = .error e) →
      parse_ctftime_date s y t = (none, none)) ∧
    (parse_ctftime_date s y t = (none, none) ∨
      ∃ a b, parse_ctftime_date s y t = (some a, some b)) := by
  constructor
  · intro h
    rcases h with hb | ⟨e, he⟩
    · rw [parse_ctftime_date, if_pos hb]
    · by_cases hb : isBlank s
      · rw [parse_ctftime_date, if_pos hb]
      · rw [parse_ctftime_date, if_neg hb, he]
  · by_cases hb : isBlank s
    · left; rw [parse_ctftime_date, if_pos hb]
    · cases hpb : parseBody s y t with
      | error e => left; rw [parse_ctftime_date, if_neg hb, hpb]
      | ok r =>
        rcases parseBody_shape s y t r hpb with h | ⟨a, b, h⟩
        · left; rw [parse_ctftime_date, if_neg hb, hpb, h]
        · right; exact ⟨a, b, by rw [parse_ctftime_date, if_neg hb, hpb, h]⟩

/-- Claim C3, witness: a whitespace-only input yields the absent interval. -/
theorem c3_witness : parse_ctftime_date "   " 2019 sampleToday = (none, none) :=
  (c3_parse_never_raises "   " 2019 sampleToday).1 (Or.inl rfl)

/-- Claim C4, counterexample: "-" splits into two segments that are both
empty, yet parse returns a present interval (the appended reference year alone
fuzzy-parses, with month and day defaulted from the current date).  The code
only checks the number of segments, not their non-emptiness, so "an input with
one empty side of the separator yields the absent interval" is false. -/
theorem c4_counterexample :
    reSplitDash "-" = ["", ""] ∧
    parse_ctftime_date "-" 2019 ⟨2026, 10, 12⟩ =
      (some ⟨2019, 10, 12, 0, 0⟩, some ⟨2019, 10, 12, 0, 0⟩) :=
  ⟨rfl, rfl⟩

/-- Claim C4, amended: the dash split yields one segment per dash occurrence
plus one, empty segments included, and parse returns the absent interval
whenever the count differs from two — in particular for more than one
separator occurrence.  Emptiness of a segment is not checked. -/
theorem c4_split_length_guard (s : String) (y : Int) (t : Date) :
    (reSplitDash s).length = s.toList.countP isDashChar + 1 ∧
    ((reSplitDash s).length ≠ 2 → parse_ctftime_date s y t = (none, none)) := by
  refine ⟨reSplitDash_length s, fun h2 => ?_⟩
  by_cases hb : isBlank s
  · rw [parse_ctftime_date, if_pos hb]
  · have hbne : ((reSplitDash s).length != 2) = true := by simpa using h2
    rw [parse_ctftime_date, if_neg hb, parseBody, if_pos hbne]

/-- Claim C4, witness: two separator occurrences yield the absent interval. -/
theorem c4_witness : parse_ctftime_date "a - b - c" 2019 sampleToday = (none, none) :=
  (c4_split_length_guard "a - b - c" 2019 sampleToday).2 (by decide)

/-- Claim C5, counterexample: one record with year "unknown" (between two
well-formed records) makes `enrich_dataset` raise — modelled as `.error ()` —
so the run aborts, no output is emitted, and the remaining record is never
processed, contradicting "must not abort the whole run". -/
theorem c5_counterexample :
    enrich_dataset ⟨[], []⟩ [recScenario, recBadYear, recZeroDur] sampleToday = .error () :=
  rfl

/-- Claim C5, amended: a record whose year field is not a usable integer makes
the whole `enrich_dataset` run raise: `int(row.get('year', 0))` at line 232 is
not inside any per-record exception handler. -/
theorem c5_bad_year_aborts_run (st : EState) (rows : List RawRecord) (t : Date)
    (h : ∃ r ∈ rows, pyInt r.year = .error ()) :
    enrich_dataset st rows t = .error () := by
  unfold enrich_dataset
  exact enrichAux_error t rows st _ h

/-- Claim C5, witness for the amended theorem. -/
theorem c5_witness :
    enrich_dataset ⟨[], []⟩ [recBadYear] sampleToday = .error () :=
  c5_bad_year_aborts_run ⟨[], []⟩ [recBadYear] sampleToday ⟨recBadYear, by simp, rfl⟩

/-- Claim C9: `get_duration_category` maps hours below 24 to Short, 24 to 48
inclusive to Medium and above 48 to Long, while the `is_multi_day` expression
of line 211 is 1 exactly when the duration is present and strictly above 24;
at exactly 24 hours the category is Medium but the flag is 0. -/
theorem c9_duration_category_boundaries :
    (∀ h : ℚ, h < 24 → get_duration_category (some h) = some "Short") ∧
    (∀ h : ℚ, 24 ≤ h → h ≤ 48 → get_duration_category (some h) = some "Medium") ∧
    (∀ h : ℚ, 48 < h → get_duration_category (some h) = some "Long") ∧
    (∀ h : ℚ, multiDayFlag (some h) = 1 ↔ 24 < h) ∧
    multiDayFlag none = 0 ∧
    get_duration_category (some 24) = some "Medium" ∧
    multiDayFlag (some 24) = 0 := by
  refine ⟨?_, ?_, ?_, ?_, rfl, ?_, ?_⟩
  · intro h hh; simp [get_duration_category, hh]
  · intro h h1 h2
    rw [get_duration_category]
    rw [if_neg (not_lt.mpr h1), if_pos h2]
  · intro h hh
    rw [get_duration_category]
    rw [if_neg (by linarith), if_neg (not_le.mpr hh)]
  · intro h
    rw [multiDayFlag]
    constructor
    · intro h1
      by_contra hc
      simp [hc] at h1
    · intro h24
      rw [if_pos ⟨by linarith, h24⟩]
  · norm_num [get_duration_category]
  · norm_num [multiDayFlag]

/-- Claim C9, witness at 30 hours: Medium and multi-day. -/
theorem c9_witness :
    get_duration_category (some 30) = some "Medium" ∧ multiDayFlag (some 30) = 1 :=
  ⟨c9_duration_category_boundaries.2.1 30 (by norm_num) (by norm_num),
   (c9_duration_category_boundaries.2.2.2.1 30).mpr (by norm_num)⟩

/-- Claim C2: when every record's year and weight fields are usable numbers
(the RawEvent typing of §3), `enrich_dataset` emits exactly one enriched
record per input record, in input order, and assigns each record an
`event_sequence_in_year` equal to its 1-based position among the records
sharing its parsed year value. -/
theorem c2_enrich_dataset_order_and_sequence (st : EState) (rows : List RawRecord)
    (t : Date)
    (hy : ∀ r ∈ rows, ∃ y, pyInt r.year = .ok y)
    (hw : ∀ r ∈ rows, ∃ w, pyFloat r.weight = .ok w) :
    ∃ st2 out, enrich_dataset st rows t = .ok (st2, out) ∧
      out.length = rows.length ∧
      ∀ i, i < rows.length →
        ∃ e r, out[i]? = some e ∧ rows[i]? = some r ∧
          e.event_id = r.event_id ∧ e.name = r.name ∧ e.date_raw = r.date_raw ∧
          e.event_sequence_in_year =
            (rows.take (i + 1)).countP (fun r2 => yearKey r2 == yearKey r) := by
  obtain ⟨st2, out, h1, h2, h3⟩ := enrichAux_spec t rows st (fun _ => 0) hy hw
  refine ⟨st2, out, h1, h2, fun i hi => ?_⟩
  obtain ⟨e, r, a1, a2, a3, a4, a5, a6⟩ := h3 i hi
  exact ⟨e, r, a1, a2, a3, a4, a5, by simpa using a6⟩

/-- Claim C2, witness at two concrete records. -/
theorem c2_witness :
    ∃ st2 out,
      enrich_dataset ⟨[], []⟩ [recScenario, recNewYear] sampleToday = .ok (st2, out) ∧
      out.length = [recScenario, recNewYear].length ∧
      ∀ i, i < [recScenario, recNewYear].length →
        ∃ e r, out[i]? = some e ∧ [recScenario, recNewYear][i]? = some r ∧
          e.event_id = r.event_id ∧ e.name = r.name ∧ e.date_raw = r.date_raw ∧
          e.event_sequence_in_year =
            ([recScenario, recNewYear].take (i + 1)).countP
              (fun r2 => yearKey r2 == yearKey r) :=
  c2_enrich_dataset_order_and_sequence ⟨[], []⟩ [recScenario, recNewYear] sampleToday
    (by
      intro r hr
      simp only [List.mem_cons, List.not_mem_nil, or_false] at hr
      rcases hr with rfl | rfl
      · exact ⟨_, rfl⟩
      · exact ⟨_, rfl⟩)
    (by
      intro r hr
      simp only [List.mem_cons, List.not_mem_nil, or_false] at hr
      rcases hr with rfl | rfl
      · exact ⟨_, rfl⟩
      · exact ⟨_, rfl⟩)

/-- Claim C6, counterexample: a successfully parsed zero-length range yields
`duration_hours = 0.0` (present) with `duration_days = None` (absent), because
line 188 tests the float's truthiness; the date/duration-derived fields are
therefore not all-present-or-all-absent. -/
theorem c6_counterexample :
    (enrich_event ⟨[], []⟩ recZeroDur 1 sampleToday).map
      (fun p => (p.2.duration_hours, p.2.duration_days, p.2.start_date)) =
    .ok (some 0, none, some "2015-12-27") := rfl

/-- Claim C6, amended: on parse failure all thirteen date/duration fields are
absent; on parse success the nine calendar fields and `is_multi_day` are
present, `duration_hours` and `duration_category` are present or absent
together, and `duration_days` is additionally absent when `duration_hours` is
zero or absent; `weight_category`, `covid_era`, the keyword flags,
`year_index` and `event_sequence_in_year` are computed in both branches. -/
theorem c6_field_presence (st : EState) (r : RawRecord) (seq : Nat) (t : Date)
    (st2 : EState) (e : Enriched) (h : enrich_event st r seq t = .ok (st2, e)) :
    ((e.start_date = none ∧ e.end_date = none ∧ e.start_datetime = none ∧
      e.end_datetime = none ∧ e.duration_hours = none ∧ e.duration_days = none ∧
      e.start_month = none ∧ e.start_quarter = none ∧ e.start_day_of_week = none ∧
      e.is_weekend = none ∧ e.season = none ∧ e.is_multi_day = none ∧
      e.duration_category = none) ∨
     (e.start_date ≠ none ∧ e.end_date ≠ none ∧ e.start_datetime ≠ none ∧
      e.end_datetime ≠ none ∧ e.start_month ≠ none ∧ e.start_quarter ≠ none ∧
      e.start_day_of_week ≠ none ∧ e.is_weekend ≠ none ∧ e.season ≠ none ∧
      e.is_multi_day ≠ none ∧
      (e.duration_hours = none ↔ e.duration_category = none) ∧
      (e.duration_days ≠ none → ∃ q, e.duration_hours = some q ∧ q ≠ 0))) ∧
    (∃ y, pyInt r.year = .ok y ∧ e.year_index = y - 2015 ∧
      e.covid_era = get_covid_era y (e.start_month.getD 1)) ∧
    (∃ w, pyFloat r.weight = .ok w ∧ e.weight_category = get_weight_category (some w)) ∧
    e.is_qualifier = qualFlag r.name ∧ e.is_finals = finalsFlag r.name ∧
    e.is_prequalified = preqFlagOk r.notes ∧ e.event_sequence_in_year = seq := by
  unfold enrich_event at h
  cases hy : pyInt r.year with
  | error e2 => rw [hy] at h; cases h
  | ok y =>
    rw [hy] at h
    dsimp only at h
    cases hw : pyFloat r.weight with
    | error e2 => rw [hw] at h; cases h
    | ok w =>
      rw [hw] at h
      dsimp only at h
      cases hp : parse_ctftime_date r.date_raw y t with
      | mk so eo =>
        rw [hp] at h
        cases so with
        | none =>
          cases eo with
          | none =>
            injection h with h2
            obtain ⟨h3, h4⟩ := Prod.mk.injEq .. |>.mp h2
            subst h4
            exact ⟨Or.inl ⟨rfl, rfl, rfl, rfl, rfl, rfl, rfl, rfl, rfl, rfl, rfl, rfl, rfl⟩,
              ⟨y, rfl, rfl, rfl⟩, ⟨w, rfl, rfl⟩, rfl, rfl, preqFlag_eq r.notes, rfl⟩
          | some edt =>
            injection h with h2
            obtain ⟨h3, h4⟩ := Prod.mk.injEq .. |>.mp h2
            subst h4
            exact ⟨Or.inl ⟨rfl, rfl, rfl, rfl, rfl, rfl, rfl, rfl, rfl, rfl, rfl, rfl, rfl⟩,
              ⟨y, rfl, rfl, rfl⟩, ⟨w, rfl, rfl⟩, rfl, rfl, preqFlag_eq r.notes, rfl⟩
        | some sdt =>
          cases eo with
          | none =>
            injection h with h2
            obtain ⟨h3, h4⟩ := Prod.mk.injEq .. |>.mp h2
            subst h4
            exact ⟨Or.inl ⟨rfl, rfl, rfl, rfl, rfl, rfl, rfl, rfl, rfl, rfl, rfl, rfl, rfl⟩,
              ⟨y, rfl, rfl, rfl⟩, ⟨w, rfl, rfl⟩, rfl, rfl, preqFlag_eq r.notes, rfl⟩
          | some edt =>
            injection h with h2
            obtain ⟨h3, h4⟩ := Prod.mk.injEq .. |>.mp h2
            subst h4
            obtain ⟨hm1, hm2⟩ := parse_start_month _ _ _ _ _ hp
            refine ⟨Or.inr ⟨by simp, by simp, by simp, by simp, by simp, by simp, by simp,
              by simp, get_season_isSome _ hm1 hm2, by simp,
              (get_duration_category_none _).symm, ?_⟩,
              ⟨y, rfl, rfl, rfl⟩, ⟨w, rfl, rfl⟩, rfl, rfl, rfl, rfl⟩
            intro hne
            cases hdh : get_duration_hours (some sdt) (some edt) with
            | none => rw [hdh] at hne; exact absurd rfl hne
            | some q =>
              rw [hdh] at hne
              dsimp only at hne
              by_cases hq : (q == 0) = true
              · rw [if_pos hq] at hne
                exact absurd rfl hne
              · exact ⟨q, rfl, by simpa using hq⟩

/-- Claim C6, witness for the amended theorem at a concrete record. -/
theorem c6_witness :
    ∃ st2 e, enrich_event ⟨[], []⟩ recScenario 1 sampleToday = Except.ok (st2, e) ∧
      e.event_sequence_in_year = 1 := by
  obtain ⟨st2, e, he⟩ : ∃ st2 e,
      enrich_event ⟨[], []⟩ recScenario 1 sampleToday = Except.ok (st2, e) := ⟨_, _, rfl⟩
  exact ⟨st2, e, he, (c6_field_presence _ _ _ _ _ _ he).2.2.2.2.2.2⟩

/-- Claim C7, counterexample: the fuzzy parser fills fields missing from the
input from the current date, so the same text and reference year parsed on two
different days yield different present intervals — the result does depend on
the wall clock. -/
theorem c7_counterexample :
    parse_ctftime_date "10:00 — 12:00" 2019 ⟨2026, 10, 12⟩ ≠
    parse_ctftime_date "10:00 — 12:00" 2019 ⟨2026, 10, 13⟩ := by
  decide

/-- Claim C7, amended: the parse result is a function of the input text, the
reference year and the current date; whenever every fuzzy parse the run
performs determines day, month and a three-plus-digit year explicitly
(`parseWallFree`), the result is independent of the current date. -/
theorem c7_determinism_given_current_date (s : String) (y : Int) (t1 t2 : Date)
    (h : parseWallFree s y = true) :
    parse_ctftime_date s y t1 = parse_ctftime_date s y t2 := by
  by_cases hb : isBlank s
  · rw [parse_ctftime_date, parse_ctftime_date, if_pos hb, if_pos hb]
  · rw [parseWallFree, if_neg hb] at h
    suffices hpb : parseBody s y t1 = parseBody s y t2 by
      rw [parse_ctftime_date, parse_ctftime_date, if_neg hb, if_neg hb, hpb]
    by_cases hl : ((reSplitDash s).length != 2) = true
    · rw [parseBody, parseBody, if_pos hl, if_pos hl]
    · rw [if_neg hl] at h
      rw [parseBody, parseBody, if_neg hl, if_neg hl]
      rw [Bool.and_eq_true] at h
      obtain ⟨hwf1, h⟩ := h
      rw [wallFree_duParse _ hwf1 t1 t2]
      cases hs2 : duParse (startString ((reSplitDash s).getD 0 "") y) t2 with
      | error e => rfl
      | ok start_dt =>
        dsimp only
        have hdum : duParse (startString ((reSplitDash s).getD 0 "") y) dummyToday =
            .ok start_dt := (wallFree_duParse _ hwf1 dummyToday t2).trans hs2
        rw [hdum] at h
        dsimp only at h
        rw [Bool.and_eq_true] at h
        obtain ⟨hwf2, h⟩ := h
        rw [wallFree_duParse _ hwf2 t1 t2]
        cases he2 : duParse ((endSegInference ((reSplitDash s).getD 1 "") y
            start_dt.month).1) t2 with
        | error e => rfl
        | ok end_dt =>
          dsimp only
          have hdum2 : duParse ((endSegInference ((reSplitDash s).getD 1 "") y
              start_dt.month).1) dummyToday = .ok end_dt :=
            (wallFree_duParse _ hwf2 dummyToday t2).trans he2
          rw [hdum2] at h
          dsimp only at h
          by_cases hlt : end_dt.ltb start_dt = true
          · rw [if_pos hlt, if_pos hlt]
            rw [if_pos hlt] at h
            cases hrp : reparseString ((endSegInference ((reSplitDash s).getD 1 "") y
                start_dt.month).1) y with
            | none => rfl
            | some rs =>
              rw [hrp] at h
              dsimp only at h ⊢
              rw [wallFree_duParse rs h t1 t2]
          · rw [if_neg hlt, if_neg hlt]

/-- Claim C7, witness: the §8 scenario input is wall-clock free and parses
identically under two different current dates. -/
theorem c7_witness :
    parse_ctftime_date "27 Dec., 12:00 — 29 Dec. 2015, 12:00" 2015 ⟨2026, 10, 12⟩ =
    parse_ctftime_date "27 Dec., 12:00 — 29 Dec. 2015, 12:00" 2015 ⟨2027, 3, 5⟩ :=
  c7_determinism_given_current_date "27 Dec., 12:00 — 29 Dec. 2015, 12:00" 2015
    ⟨2026, 10, 12⟩ ⟨2027, 3, 5⟩ (by decide)

/-- Claim C8, counterexample: the code tests for the substring "jan" anywhere
in the lower-cased end segment, not for a January month token: for the end
segment "05 Feb Janfest" — whose month token is February — with a December
start, reference_year+1 is appended and the end lands in 2020-02-05, where the
claim requires the reference year (2019) to be appended. -/
theorem c8_counterexample :
    parse_ctftime_date "28 Dec — 05 Feb Janfest" 2019 ⟨2026, 10, 12⟩ =
      (some ⟨2019, 12, 28, 0, 0⟩, some ⟨2020, 2, 5, 0, 0⟩) ∧
    (endSegInference "05 Feb Janfest" 2019 12).2 = some 2020 ∧
    Tok.month 2 ∈ tokenizeStr "05 Feb Janfest" ∧
    Tok.month 1 ∉ tokenizeStr "05 Feb Janfest" :=
  ⟨rfl, rfl, by decide, by decide⟩

/-- Claim C8, amended: when neither the reference year nor reference_year+1
occurs in the end segment, reference_year+1 is appended exactly when the
lower-cased end segment contains the substring "jan" and the parsed start
month is December, and the reference year is appended otherwise; the
cross-new-year scenario (start "28 Dec." year 2019, end "02 Jan.") yields an
end in 2020 with a positive duration of 120 hours and no outlier flag. -/
theorem c8_year_inference :
    (∀ (e : String) (y : Int) (m : Nat),
      substrB (toString y) e = false → substrB (toString (y + 1)) e = false →
      ((endSegInference e y m).2 = some (y + 1) ↔
        (substrB "jan" (lowerStr e) = true ∧ m = 12))) ∧
    parse_ctftime_date "28 Dec. — 02 Jan." 2019 ⟨2026, 10, 12⟩ =
      (some ⟨2019, 12, 28, 0, 0⟩, some ⟨2020, 1, 2, 0, 0⟩) ∧
    (enrich_event ⟨[], []⟩ recNewYear 1 ⟨2026, 10, 12⟩).map
      (fun p => (p.1.duration_outliers, p.2.duration_hours)) = .ok ([], some 120) := by
  refine ⟨?_, rfl, rfl⟩
  intro e y m h1 h2
  rw [endSegInference, h1, h2]
  simp only [Bool.not_false, Bool.and_self, if_true]
  by_cases hc : (substrB "jan" (lowerStr e) && m == 12) = true
  · rw [if_pos hc]
    simp only [Bool.and_eq_true, beq_iff_eq] at hc
    simp [hc]
  · rw [if_neg hc]
    simp only [Bool.and_eq_true, beq_iff_eq] at hc
    constructor
    · intro hq
      injection hq with hq2
      omega
    · intro hq
      exact absurd ⟨hq.1, hq.2⟩ hc

/-- Claim C8, witness: the scenario's end segment gets reference_year+1. -/
theorem c8_witness : (endSegInference "02 Jan." 2019 12).2 = some (2019 + 1) :=
  (c8_year_inference.1 "02 Jan." 2019 12 (by decide) (by decide)).mpr ⟨by decide, rfl⟩

/-- Claim C10, counterexample: a raw location outside the known set — the
upstream sentinel "REVIEW" — is passed through unchanged by `enrich_event`,
contradicting "does not pass the raw location and format fields through
unchanged". -/
theorem c10_counterexample :
    (enrich_event ⟨[], []⟩ recReview 1 sampleToday).map (fun p => p.2.location) =
      .ok "REVIEW" ∧ recReview.location = "REVIEW" :=
  ⟨rfl, rfl⟩

/-- Claim C10, amended: `enrich_event` replaces location and format with their
`standardize_location`/`standardize_format` images ('On-line'/'Online' become
'Online', 'In-person'/'On-site' become 'On-site', 'Hybrid' stays, any other
location passes through unchanged; 'Hack-Quest' becomes 'Jeopardy', the four
known formats stay, any other format becomes 'Other'); event_id, name, year,
date_raw, weight and notes are copied unchanged. -/
theorem c10_standardize_and_frame :
    (∀ (st : EState) (r : RawRecord) (seq : Nat) (t : Date) (st2 : EState) (e : Enriched),
      enrich_event st r seq t = .ok (st2, e) →
      e.location = standardize_location r.location ∧
      e.format = standardize_format r.format ∧
      e.event_id = r.event_id ∧ e.name = r.name ∧ e.year = r.year ∧
      e.date_raw = r.date_raw ∧ e.weight = r.weight ∧ e.notes = r.notes) ∧
    standardize_location "On-line" = "Online" ∧
    standardize_location "Online" = "Online" ∧
    standardize_location "In-person" = "On-site" ∧
    standardize_location "On-site" = "On-site" ∧
    standardize_format "Hack-Quest" = "Jeopardy" ∧
    (∀ f : String, f ≠ "Hack-Quest" → f ≠ "Jeopardy" → f ≠ "Attack-Defense" →
      f ≠ "Hybrid" → f ≠ "King-of-the-Hill" → standardize_format f = "Other") := by
  refine ⟨?_, rfl, rfl, rfl, rfl, rfl, ?_⟩
  · intro st r seq t st2 e h
    unfold enrich_event at h
    cases hy : pyInt r.year with
    | error e2 => rw [hy] at h; cases h
    | ok y =>
      rw [hy] at h
      dsimp only at h
      cases hw : pyFloat r.weight with
      | error e2 => rw [hw] at h; cases h
      | ok w =>
        rw [hw] at h
        dsimp only at h
        cases hp : parse_ctftime_date r.date_raw y t with
        | mk so eo =>
          rw [hp] at h
          cases so <;> cases eo <;>
            · injection h with h2
              obtain ⟨h3, h4⟩ := Prod.mk.injEq .. |>.mp h2
              subst h4
              exact ⟨rfl, rfl, rfl, rfl, rfl, rfl, rfl, rfl⟩
  · intro f h1 h2 h3 h4 h5
    have b1 : (f == "Hack-Quest") = false := beq_eq_false_iff_ne.mpr h1
    have b2 : (f == "Jeopardy") = false := beq_eq_false_iff_ne.mpr h2
    have b3 : (f == "Attack-Defense") = false := beq_eq_false_iff_ne.mpr h3
    have b4 : (f == "Hybrid") = false := beq_eq_false_iff_ne.mpr h4
    have b5 : (f == "King-of-the-Hill") = false := beq_eq_false_iff_ne.mpr h5
    rw [standardize_format]
    simp [b1, b2, b3, b4, b5]

/-- Claim C10, witness: a record with raw location "On-line" gets the
standardized location. -/
theorem c10_witness :
    ∃ st2 e, enrich_event ⟨[], []⟩ recScenario 1 sampleToday = Except.ok (st2, e) ∧
      e.location = standardize_location recScenario.location := by
  obtain ⟨st2, e, he⟩ : ∃ st2 e,
      enrich_event ⟨[], []⟩ recScenario 1 sampleToday = Except.ok (st2, e) := ⟨_, _, rfl⟩
  exact ⟨st2, e, he, (c10_standardize_and_frame.1 _ _ _ _ _ _ he).1⟩

end CtfEnrich
